import Mathlib

/-!
# Verification of the course / quiz progression core

Shallow embedding of the course state-management core of the repository
(an AI course-creator web app).  The embedded code is:

* the `Course` / `Level` / `Quiz` / `QuizQuestion` / `QuizAttempt` data
  model (`services/geminiService.ts`, interfaces at the top of the file);
* `handleQuizComplete` and `isLevelUnlocked`
  (`components/CourseDisplay.tsx`, lines 99-139 and 176-179);
* the pure level-append logic of `handleAddPdfToCourse`
  (`App.tsx`, lines 69-104);
* the pure response-mapping parts of `generateCourse`,
  `generateLevelContent` and `generateAdditionalLevels`
  (`services/geminiService.ts`): the generator's parsed JSON response is
  taken as input, the external API call itself is outside the model;
* `loadCourses` (`services/courseStore.ts`) over a model of the
  `localStorage.getItem` + `JSON.parse` outcome;
* `calculateScore` (`components/QuizDisplay.tsx`).

JavaScript numeric edge cases that the claims are about are modelled
explicitly: `JSNum` has a `nan` and an `inf` constructor so that
`x / 0` can be represented faithfully; `Math.round` is `⌊x + 1/2⌋`
(round half toward +∞), applied to the exact rational value of the
expression.  `Date.now()` is passed in as a `now : ℕ` parameter.
-/

namespace SelfStudy

/-- A JavaScript number as produced by the arithmetic in this code:
either a finite (here: rational) value, `NaN`, or `Infinity`. -/
inductive JSNum where
  | num (q : ℚ)
  | nan
  | inf
  deriving DecidableEq, Repr

/-- JS `Math.round`: round half toward positive infinity, `⌊q + 1/2⌋`.
Written on the numerator/denominator representation (`q + 1/2` is
exactly `(2·num + den) / (2·den)`) so that the definition evaluates
inside the kernel; `jsRound_eq` below states the floor form. -/
def jsRound (q : ℚ) : ℤ := Rat.floor (mkRat (2 * q.num + q.den) (2 * q.den))

/-- JS `(score / total) * 100` on non-negative integers:
`0 / 0 = NaN`, `s / 0 = Infinity` for `s > 0`, otherwise the exact value
`100·score / total` (`jsPercentage_eq` below states the division form). -/
def jsPercentage (score total : ℕ) : JSNum :=
  if total = 0 then (if score = 0 then .nan else .inf)
  else .num (mkRat (100 * score) total)

/-- Quiz status (`'not-started' | 'completed'`). -/
inductive QStatus where
  | notStarted
  | completed
  deriving DecidableEq, Repr

/-- Level status (`'not-started' | 'in-progress' | 'completed'`). -/
inductive LStatus where
  | notStarted
  | inProgress
  | completed
  deriving DecidableEq, Repr

/-- Course difficulty (`'Beginner' | 'Advanced'`). -/
inductive Difficulty where
  | beginner
  | advanced
  deriving DecidableEq, Repr

structure ArticleSuggestion where
  title : String
  url : String
  concept : String
  deriving DecidableEq, Repr

structure VideoSuggestion where
  title : String
  url : String
  channel : String
  deriving DecidableEq, Repr

structure CaseStudySuggestion where
  title : String
  description : String
  deriving DecidableEq, Repr

structure StudySuggestions where
  articles : List ArticleSuggestion
  videos : List VideoSuggestion
  caseStudies : List CaseStudySuggestion
  deriving DecidableEq, Repr

structure QuizQuestion where
  question : String
  options : List String
  answer : String
  imageUrl : Option String := none
  deriving DecidableEq, Repr

structure Quiz where
  quizId : String
  questions : List QuizQuestion
  status : QStatus
  score : Option ℕ := none
  deriving DecidableEq, Repr

structure Level where
  levelId : String
  levelTitle : String
  status : LStatus
  summary : String
  quizzes : List Quiz
  references : StudySuggestions
  imageUrl : Option String := none
  deriving DecidableEq, Repr

structure QuizAttempt where
  attemptId : String
  quizId : String
  levelId : String
  levelTitle : String
  score : ℕ
  totalQuestions : ℕ
  percentage : JSNum
  timestamp : ℕ
  deriving DecidableEq, Repr

structure NextSteps where
  relatedTopics : List String
  advancedMaterial : List CaseStudySuggestion
  deriving DecidableEq, Repr

structure Course where
  courseId : String
  courseTitle : String
  progress : JSNum
  difficulty : Difficulty
  levels : List Level
  history : List QuizAttempt
  nextSteps : NextSteps
  deriving DecidableEq, Repr

/-- JS `Array.prototype.findIndex`, with `none` standing for the `-1`
sentinel. -/
def jsFindIndex (p : α → Bool) : List α → Option ℕ
  | [] => none
  | x :: xs => if p x then some 0 else (jsFindIndex p xs).map (· + 1)

/-- JS `Array.prototype.map` when the callback also uses the element
index; `i` is the index of the head of the remaining list. -/
def mapWithIndex (f : ℕ → α → β) : ℕ → List α → List β
  | _, [] => []
  | i, x :: xs => f i x :: mapWithIndex f (i + 1) xs

/-- `levels.filter(l => l.status === 'completed').length`. -/
def completedCount (levels : List Level) : ℕ :=
  (levels.filter fun l => l.status = .completed).length

/-- `Math.round((completedCount / levels.length) * 100)` as it appears at
`CourseDisplay.tsx:131-132` and `App.tsx:93-94`.  When `levels` is empty
the JS expression is `Math.round((0/0) * 100) = NaN`. -/
def computeProgress (levels : List Level) : JSNum :=
  if levels.length = 0 then .nan
  else .num ((jsRound (mkRat (100 * completedCount levels) levels.length) : ℤ) : ℚ)

/-- Outcome of `handleQuizComplete` (`CourseDisplay.tsx:99-139`).

The source builds `newCourse = {...course}` — a shallow copy, so
`newCourse.levels` aliases `course.levels` — and later executes
`newCourse.levels[currentLevelIndex] = levelToUpdate`, which writes
through the shared array into the caller's course.  `ok` therefore
carries both the new course value (what `setCourse` receives) and
`oldRefView`: what a holder of the *input* course reference observes
after the call.  `history` and `progress` are rebound on the copy only
(`newCourse.history = [...]`, `newCourse.progress = ...`), so the old
reference keeps its stale `history`/`progress` but sees the updated
`levels` array. -/
inductive QuizCompleteResult where
  | typeError
  | notFound
  | ok (newCourse : Course) (oldRefView : Course)
  deriving DecidableEq, Repr

/-- `handleQuizComplete` (`CourseDisplay.tsx:99-139`), with `Date.now()`
passed in as `now`.  `typeError` models the `TypeError` thrown when
`currentLevelIndex` is out of range (`{...undefined}.quizzes.findIndex`);
`notFound` models the early `return` when `quizIndex === -1`. -/
def handleQuizComplete (course : Course) (currentLevelIndex : ℕ)
    (quizId : String) (score : ℕ) (now : ℕ) : QuizCompleteResult :=
  match course.levels.get? currentLevelIndex with
  | none => .typeError
  | some level =>
    match jsFindIndex (fun q => q.quizId = quizId) level.quizzes with
    | none => .notFound
    | some quizIndex =>
      match level.quizzes.get? quizIndex with
      | none => .notFound
      | some quiz =>
        let quizToUpdate : Quiz := { quiz with status := .completed, score := some score }
        let newAttempt : QuizAttempt :=
          { attemptId := "att-" ++ toString now
            quizId := quizId
            levelId := level.levelId
            levelTitle := level.levelTitle
            score := score
            totalQuestions := quizToUpdate.questions.length
            percentage := jsPercentage score quizToUpdate.questions.length
            timestamp := now }
        let newHistory := course.history ++ [newAttempt]
        let newQuizzes := level.quizzes.set quizIndex quizToUpdate
        let isFirstQuiz := quizIndex = 0
        let newStatus : LStatus :=
          if isFirstQuiz ∧ level.status ≠ .completed then .completed else level.status
        let levelToUpdate : Level := { level with quizzes := newQuizzes, status := newStatus }
        let newLevels := course.levels.set currentLevelIndex levelToUpdate
        let newCourse : Course :=
          { course with
              levels := newLevels
              history := newHistory
              progress := computeProgress newLevels }
        let oldRefView : Course := { course with levels := newLevels }
        .ok newCourse oldRefView

/-- `isLevelUnlocked` (`CourseDisplay.tsx:176-179`).  `none` models the
`TypeError` thrown when `course.levels[levelIndex - 1]` is `undefined`. -/
def isLevelUnlocked (course : Course) (levelIndex : ℕ) : Option Bool :=
  if levelIndex = 0 then some true
  else (course.levels.get? (levelIndex - 1)).map fun l => decide (l.status = .completed)

/-- `calculateScore` (`QuizDisplay.tsx:27-34`): number of positions where
the user's answer equals the question's answer. -/
def calculateScore (userAnswers : List String) (quiz : List QuizQuestion) : ℕ :=
  (mapWithIndex (fun i a => decide ((quiz.get? i).map QuizQuestion.answer = some a)) 0 userAnswers
    |>.filter id).length

/-! ## Generator response mapping

The pure part of `generateCourse`, `generateLevelContent` and
`generateAdditionalLevels` (`services/geminiService.ts`): the parsed
JSON the external generator returned is mapped into the `Course` /
`Level` shapes.  The parsed shapes below follow the `responseSchema`
each call declares; a question's `imageIndex` is optional in every
schema (`undefined >= 0` is `false` in JS, hence `Option ℤ`), a level's
`imageIndex` is required (`ℤ`). -/

/-- The expression `(i >= 0 && i < images.length) ? images[i] : undefined`
that every generation path applies to a generator-returned image index
(`geminiService.ts` lines 230, 238, 408, 411, 602, 608). -/
def resolveImage (images : List String) (i : ℤ) : Option String :=
  if 0 ≤ i ∧ i < (images.length : ℤ) then images.get? i.toNat else none

/-- A question's resolution: the `imageIndex` field may be absent. -/
def resolveImageOpt (images : List String) (i : Option ℤ) : Option String :=
  match i with
  | none => none
  | some i => resolveImage images i

/-- A quiz question as parsed from a generator response. -/
structure ParsedQuestion where
  question : String
  options : List String
  answer : String
  imageIndex : Option ℤ := none
  deriving DecidableEq, Repr

/-- References as parsed from a generator response (no case studies in
the schema; the mapping code adds `caseStudies: []`). -/
structure ParsedRefs where
  articles : List ArticleSuggestion
  videos : List VideoSuggestion
  deriving DecidableEq, Repr

/-- A level as parsed from a generator response (`levels` items of
`generateCourse`'s schema, `newLevels` items of
`generateAdditionalLevels`'s schema). -/
structure ParsedLevel where
  levelTitle : String
  summary : String
  imageIndex : ℤ
  quiz : List ParsedQuestion
  references : ParsedRefs
  deriving DecidableEq, Repr

/-- The full parsed response of `generateCourse`'s schema. -/
structure ParsedCourse where
  courseTitle : String
  levels : List ParsedLevel
  nextSteps : NextSteps
  deriving DecidableEq, Repr

/-- The parsed response of `generateLevelContent`'s schema. -/
structure ParsedLevelContent where
  summary : String
  imageIndex : ℤ
  quiz : List ParsedQuestion
  references : ParsedRefs
  deriving DecidableEq, Repr

/-- `LevelContent` (internal interface of `geminiService.ts`). -/
structure LevelContent where
  summary : String
  imageUrl : Option String := none
  quiz : List QuizQuestion
  references : StudySuggestions
  deriving DecidableEq, Repr

/-- `Omit<Level, 'levelId' | 'status'>`: what `generateAdditionalLevels`
returns per level. -/
structure PartialLevel where
  levelTitle : String
  summary : String
  quizzes : List Quiz
  references : StudySuggestions
  imageUrl : Option String := none
  deriving DecidableEq, Repr

/-- `level.quiz.map(q => ({question, options, answer, imageUrl: ...}))`
shared by the course and additional-level mappings
(`geminiService.ts:226-231` and `598-603`). -/
def buildQuizQuestions (images : List String) (quiz : List ParsedQuestion) : List QuizQuestion :=
  quiz.map fun q =>
    { question := q.question
      options := q.options
      answer := q.answer
      imageUrl := resolveImageOpt images q.imageIndex }

/-- The response-mapping part of `generateCourse`
(`geminiService.ts:219-248`), with `Date.now()` as `now`. -/
def buildCourseFromParsed (images : List String) (difficulty : Difficulty)
    (parsed : ParsedCourse) (now : ℕ) : Course :=
  { courseId := "crs-" ++ toString now
    courseTitle := parsed.courseTitle
    progress := .num 0
    difficulty := difficulty
    history := []
    levels := mapWithIndex (fun index level =>
      { levelId := "lvl-" ++ toString now ++ "-" ++ toString index
        status := .notStarted
        levelTitle := level.levelTitle
        summary := level.summary
        imageUrl := resolveImage images level.imageIndex
        quizzes := [{ quizId := "quiz-" ++ toString now ++ "-" ++ toString index
                      questions := buildQuizQuestions images level.quiz
                      status := .notStarted }]
        references := { articles := level.references.articles
                        videos := level.references.videos
                        caseStudies := [] } }) 0 parsed.levels
    nextSteps := parsed.nextSteps }

/-- The response-mapping part of `generateLevelContent`
(`geminiService.ts:405-414`), the per-level call of the manual flow. -/
def buildLevelContent (allImages : List String) (parsed : ParsedLevelContent) : LevelContent :=
  { summary := parsed.summary
    imageUrl := resolveImage allImages parsed.imageIndex
    quiz := buildQuizQuestions allImages parsed.quiz
    references := { articles := parsed.references.articles
                    videos := parsed.references.videos
                    caseStudies := [] } }

/-- The response-mapping part of `generateAdditionalLevels`
(`geminiService.ts:595-616`), with `Date.now()` as `now`. -/
def buildAdditionalLevels (newImages : List String) (parsedNewLevels : List ParsedLevel)
    (now : ℕ) : List PartialLevel :=
  mapWithIndex (fun index level =>
    { levelTitle := level.levelTitle
      summary := level.summary
      imageUrl := resolveImage newImages level.imageIndex
      quizzes := [{ quizId := "quiz-" ++ toString now ++ "-ext-" ++ toString index
                    questions := buildQuizQuestions newImages level.quiz
                    status := .notStarted }]
      references := { articles := level.references.articles
                      videos := level.references.videos
                      caseStudies := [] } }) 0 parsedNewLevels

/-- The pure level-append logic of `handleAddPdfToCourse`
(`App.tsx:84-96`): stamps id and `'not-started'` status onto each
partial level, appends them to `course.levels`, and recomputes
`progress` with `Math.round((completedCount / levels.length) * 100)`. -/
def appendLevelsToCourse (course : Course) (newPartialLevels : List PartialLevel)
    (now : ℕ) : Course :=
  let newLevels := mapWithIndex (fun index level =>
    { levelId := "lvl-" ++ toString now ++ "-" ++ toString (course.levels.length + index)
      levelTitle := level.levelTitle
      status := .notStarted
      summary := level.summary
      quizzes := level.quizzes
      references := level.references
      imageUrl := level.imageUrl } : ℕ → PartialLevel → Level) 0 newPartialLevels
  let levels' := course.levels ++ newLevels
  { course with levels := levels', progress := computeProgress levels' }

/-! ## Content store

`loadCourses` (`services/courseStore.ts:117-131`).  `localStorage.getItem`
and `JSON.parse` are external; their combined outcome is modelled by
`StoredValue`: the key is absent, the stored string is not valid JSON
(`JSON.parse` throws, caught by the `try`), or it parses to a JSON
value. -/

/-- A JSON value. -/
inductive JSON where
  | null
  | bool (b : Bool)
  | num (q : ℚ)
  | str (s : String)
  | arr (xs : List JSON)
  | obj (fields : List (String × JSON))

/-- Outcome of `localStorage.getItem(STORAGE_KEY)` followed by
`JSON.parse`. -/
inductive StoredValue where
  | missing
  | unparseable
  | parsed (j : JSON)

/-- `loadCourses` (`courseStore.ts:117-131`): returns the parsed value if
it is an array (`Array.isArray(parsed)`), else `[]`; a parse error is
caught and yields `[]`.  The elements are returned as-is (the code casts
the array to `Course[]` without inspecting the elements). -/
def loadCourses : StoredValue → List JSON
  | .missing => []
  | .unparseable => []
  | .parsed (.arr xs) => xs
  | .parsed _ => []

/-- Field lookup in a JSON object. -/
def JSON.field (fields : List (String × JSON)) (k : String) : Option JSON :=
  (fields.find? fun f => f.1 = k).map fun f => f.2

/-- Structural well-formedness of a quiz question JSON value, per the
`QuizQuestion` interface of `geminiService.ts`. -/
def isQuestionJSON : JSON → Bool
  | .obj fs =>
    (match JSON.field fs "question" with | some (.str _) => true | _ => false) &&
    (match JSON.field fs "options" with
     | some (.arr os) => os.all fun o => match o with | .str _ => true | _ => false
     | _ => false) &&
    (match JSON.field fs "answer" with | some (.str _) => true | _ => false)
  | _ => false

/-- Structural well-formedness of a quiz JSON value, per the `Quiz`
interface of `geminiService.ts`. -/
def isQuizJSON : JSON → Bool
  | .obj fs =>
    (match JSON.field fs "quizId" with | some (.str _) => true | _ => false) &&
    (match JSON.field fs "questions" with
     | some (.arr qs) => qs.all isQuestionJSON
     | _ => false) &&
    (match JSON.field fs "status" with
     | some (.str s) => s = "not-started" || s = "completed"
     | _ => false)
  | _ => false

/-- Structural well-formedness of a level JSON value, per the `Level`
interface of `geminiService.ts`. -/
def isLevelJSON : JSON → Bool
  | .obj fs =>
    (match JSON.field fs "levelId" with | some (.str _) => true | _ => false) &&
    (match JSON.field fs "levelTitle" with | some (.str _) => true | _ => false) &&
    (match JSON.field fs "status" with
     | some (.str s) => s = "not-started" || s = "in-progress" || s = "completed"
     | _ => false) &&
    (match JSON.field fs "summary" with | some (.str _) => true | _ => false) &&
    (match JSON.field fs "quizzes" with
     | some (.arr qs) => qs.all isQuizJSON
     | _ => false)
  | _ => false

/-- Structural well-formedness of a course JSON value, per the `Course`
interface of `geminiService.ts`. -/
def isCourseJSON : JSON → Bool
  | .obj fs =>
    (match JSON.field fs "courseId" with | some (.str _) => true | _ => false) &&
    (match JSON.field fs "courseTitle" with | some (.str _) => true | _ => false) &&
    (match JSON.field fs "progress" with | some (.num _) => true | _ => false) &&
    (match JSON.field fs "difficulty" with
     | some (.str s) => s = "Beginner" || s = "Advanced"
     | _ => false) &&
    (match JSON.field fs "levels" with
     | some (.arr ls) => ls.all isLevelJSON
     | _ => false) &&
    (match JSON.field fs "history" with | some (.arr _) => true | _ => false)
  | _ => false

/-- What the application state becomes after `handleQuizComplete`:
`setCourse` is only reached on the `ok` path, so on `notFound` (and on a
thrown `TypeError`) the stored course is unchanged. -/
def applyHandleQuizComplete (course : Course) (currentLevelIndex : ℕ)
    (quizId : String) (score : ℕ) (now : ℕ) : Course :=
  match handleQuizComplete course currentLevelIndex quizId score now with
  | .ok newCourse _ => newCourse
  | _ => course

/-- Index of the first level whose status is not `completed`
(`length levels` when every level is completed); the
`firstIncompleteLevelIndex` of the spec's unlock-monotonicity property. -/
def firstIncompleteLevelIndex : List Level → ℕ
  | [] => 0
  | l :: ls => if l.status = .completed then firstIncompleteLevelIndex ls + 1 else 0

/-! ## Concrete sample data -/

/-- A multiple-choice question (4 options, answer among them). -/
def dummyQuestion : QuizQuestion :=
  { question := "Q", options := ["a", "b", "c", "d"], answer := "a" }

def noRefs : StudySuggestions := { articles := [], videos := [], caseStudies := [] }

def noNext : NextSteps := { relatedTopics := [], advancedMaterial := [] }

/-- A fresh (not started) level with one seeded three-question quiz. -/
def mkFreshLevel (lid title qid : String) : Level :=
  { levelId := lid, levelTitle := title, status := .notStarted, summary := "sum"
    quizzes := [{ quizId := qid
                  questions := [dummyQuestion, dummyQuestion, dummyQuestion]
                  status := .notStarted }]
    references := noRefs }

/-- A completed level whose seeded quiz was completed with full score. -/
def mkDoneLevel (lid title qid : String) : Level :=
  { levelId := lid, levelTitle := title, status := .completed, summary := "sum"
    quizzes := [{ quizId := qid
                  questions := [dummyQuestion, dummyQuestion, dummyQuestion]
                  status := .completed
                  score := some 3 }]
    references := noRefs }

/-- A fresh three-level course, all quizzes not started. -/
def course3 : Course :=
  { courseId := "crs-1", courseTitle := "T", progress := .num 0, difficulty := .beginner
    levels := [mkFreshLevel "l0" "L0" "q0", mkFreshLevel "l1" "L1" "q1",
               mkFreshLevel "l2" "L2" "q2"]
    history := [], nextSteps := noNext }

/-- A fully completed two-level course (progress 100). -/
def course2done : Course :=
  { courseId := "crs-2", courseTitle := "T2", progress := .num 100, difficulty := .beginner
    levels := [mkDoneLevel "l0" "L0" "q0", mkDoneLevel "l1" "L1" "q1"]
    history := [], nextSteps := noNext }

/-- A course whose levels list is empty. -/
def emptyCourse : Course :=
  { courseId := "crs-0", courseTitle := "E", progress := .num 0, difficulty := .beginner
    levels := [], history := [], nextSteps := noNext }

/-- A course whose single level carries a quiz with an empty questions
list. -/
def courseEmptyQuiz : Course :=
  { courseId := "crs-3", courseTitle := "T3", progress := .num 0, difficulty := .beginner
    levels := [{ levelId := "l0", levelTitle := "L0", status := .notStarted, summary := "sum"
                 quizzes := [{ quizId := "qe", questions := [], status := .notStarted }]
                 references := noRefs }]
    history := [], nextSteps := noNext }

/-- A generator-returned level (as parsed), no relevant image. -/
def parsedNewLevel (t : String) : ParsedLevel :=
  { levelTitle := t, summary := "ns", imageIndex := -1
    quiz := [{ question := "NQ", options := ["a", "b", "c", "d"], answer := "a" }]
    references := { articles := [], videos := [] } }

/-- The observable outcome the spec ascribes to a successful quiz
completion: the addressed quiz becomes completed with the submitted
score, the enclosing level's other fields survive, the level is
completed exactly when the quiz is the level's first quiz or it was
completed already, other levels are untouched, exactly one attempt is
appended to the history, and progress is recomputed from the full level
list. -/
def CompleteQuizOutcome (course : Course) (li : ℕ) (qid : String) (s now : ℕ)
    (level : Level) (qi : ℕ) (quiz : Quiz) : Prop :=
  ∃ nc old, handleQuizComplete course li qid s now = .ok nc old ∧
    (∃ level', nc.levels.get? li = some level' ∧
      level'.levelId = level.levelId ∧
      level'.levelTitle = level.levelTitle ∧
      level'.summary = level.summary ∧
      level'.quizzes = level.quizzes.set qi { quiz with status := .completed, score := some s } ∧
      level'.quizzes.get? qi = some { quiz with status := .completed, score := some s } ∧
      (level'.status = .completed ↔ (qi = 0 ∨ level.status = .completed))) ∧
    (∀ i, i ≠ li → nc.levels.get? i = course.levels.get? i) ∧
    nc.levels.length = course.levels.length ∧
    nc.history = course.history ++
      [{ attemptId := "att-" ++ toString now
         quizId := qid
         levelId := level.levelId
         levelTitle := level.levelTitle
         score := s
         totalQuestions := quiz.questions.length
         percentage := .num ((s : ℚ) / (quiz.questions.length : ℚ) * 100)
         timestamp := now }] ∧
    nc.progress = .num ((⌊(completedCount nc.levels : ℚ) / (nc.levels.length : ℚ) * 100 + 1/2⌋ : ℤ) : ℚ)

/-- The observable outcome the spec ascribes to appending
generator-produced levels to a course: new levels go to the end, each
not-started with exactly one seeded not-started quiz, the existing
prefix is untouched, and progress is recomputed over the enlarged
list. -/
def AppendOutcome (course : Course) (images : List String)
    (parsed : List ParsedLevel) (tg ta : ℕ) : Prop :=
  (appendLevelsToCourse course (buildAdditionalLevels images parsed tg) ta).levels.length
      = course.levels.length + parsed.length ∧
  (appendLevelsToCourse course (buildAdditionalLevels images parsed tg) ta).levels.take
      course.levels.length = course.levels ∧
  (∀ l ∈ (appendLevelsToCourse course (buildAdditionalLevels images parsed tg) ta).levels.drop
      course.levels.length,
    l.status = .notStarted ∧ l.quizzes.map Quiz.status = [.notStarted]) ∧
  ((appendLevelsToCourse course (buildAdditionalLevels images parsed tg) ta).levels ≠ [] →
    (appendLevelsToCourse course (buildAdditionalLevels images parsed tg) ta).progress
      = .num ((⌊(completedCount
          (appendLevelsToCourse course (buildAdditionalLevels images parsed tg) ta).levels : ℚ)
        / ((appendLevelsToCourse course (buildAdditionalLevels images parsed tg) ta).levels.length : ℚ)
        * 100 + 1/2⌋ : ℤ) : ℚ))

/-! ## Helper lemmas -/

theorem length_mapWithIndex (f : ℕ → α → β) (i : ℕ) (xs : List α) :
    (mapWithIndex f i xs).length = xs.length := by
  induction xs generalizing i with
  | nil => rfl
  | cons x xs ih => simp [mapWithIndex, ih]

theorem mem_mapWithIndex {f : ℕ → α → β} {b : β} :
    ∀ {i : ℕ} {xs : List α}, b ∈ mapWithIndex f i xs → ∃ j x, x ∈ xs ∧ b = f j x := by
  intro i xs
  induction xs generalizing i with
  | nil => intro h; cases h
  | cons x xs ih =>
    intro h
    rcases List.mem_cons.mp h with h | h
    · exact ⟨i, x, List.mem_cons_self x xs, h⟩
    · obtain ⟨j, y, hy, hb⟩ := ih h
      exact ⟨j, y, List.mem_cons_of_mem x hy, hb⟩

theorem map_mapWithIndex (f : ℕ → α → β) (g : β → γ) (i : ℕ) (xs : List α) :
    (mapWithIndex f i xs).map g = mapWithIndex (fun j x => g (f j x)) i xs := by
  induction xs generalizing i with
  | nil => rfl
  | cons x xs ih => simp [mapWithIndex, ih]

theorem mapWithIndex_const (g : α → β) (i : ℕ) (xs : List α) :
    mapWithIndex (fun _ x => g x) i xs = xs.map g := by
  induction xs generalizing i with
  | nil => rfl
  | cons x xs ih => simp [mapWithIndex, ih]

theorem jsFindIndex_eq_none {p : α → Bool} {xs : List α} (h : ∀ x ∈ xs, ¬ p x) :
    jsFindIndex p xs = none := by
  induction xs with
  | nil => rfl
  | cons x xs ih =>
    have hx : p x = false := by
      have := h x (List.mem_cons_self x xs)
      simpa using this
    simp [jsFindIndex, hx]
    exact ih fun y hy => h y (List.mem_cons_of_mem x hy)

theorem jsFindIndex_get? {p : α → Bool} :
    ∀ {xs : List α} {i : ℕ}, jsFindIndex p xs = some i →
      ∃ x, xs.get? i = some x ∧ p x = true := by
  intro xs
  induction xs with
  | nil => intro i h; cases h
  | cons x xs ih =>
    intro i h
    by_cases hp : p x
    · simp [jsFindIndex, hp] at h
      exact h ▸ ⟨x, rfl, hp⟩
    · simp [jsFindIndex, hp] at h
      obtain ⟨j, hj, rfl⟩ := h
      obtain ⟨y, hy, hpy⟩ := ih hj
      exact ⟨y, hy, hpy⟩

theorem get?_set_self {l : List α} {i : ℕ} (a : α) (h : i < l.length) :
    (l.set i a).get? i = some a := by
  simp [List.get?_eq_getElem?, List.getElem?_set_self, h]

theorem get?_set_ne {l : List α} {i j : ℕ} (a : α) (h : i ≠ j) :
    (l.set i a).get? j = l.get? j := by
  simp [List.get?_eq_getElem?, List.getElem?_set_ne h]

theorem lt_firstIncomplete_get? (levels : List Level) :
    ∀ j, j < firstIncompleteLevelIndex levels →
      ∃ l, levels.get? j = some l ∧ l.status = .completed := by
  induction levels with
  | nil => intro j h; simp [firstIncompleteLevelIndex] at h
  | cons l ls ih =>
    intro j h
    by_cases hc : l.status = .completed
    · match j with
      | 0 => exact ⟨l, rfl, hc⟩
      | j + 1 =>
        simp [firstIncompleteLevelIndex, hc] at h
        exact ih j h
    · simp [firstIncompleteLevelIndex, hc] at h

/-! ## Bridge lemmas for the kernel-friendly rational forms -/

theorem ratFloor_eq_intFloor (a : ℚ) : Rat.floor a = ⌊a⌋ := by
  rw [Rat.floor_def', ← Rat.floor_def]

theorem mkRat_half (q : ℚ) : (mkRat (2 * q.num + q.den) (2 * q.den) : ℚ) = q + 1/2 := by
  have hden : ((q.den : ℕ) : ℚ) ≠ 0 := Nat.cast_ne_zero.mpr q.den_nz
  have h2d : ((2 * q.den : ℕ) : ℚ) ≠ 0 := by push_cast; positivity
  have hq : (q.num : ℚ) = q * q.den := (div_eq_iff hden).mp (Rat.num_div_den q)
  rw [Rat.mkRat_eq_div]
  push_cast
  rw [div_eq_iff (by push_cast at h2d ⊢; exact h2d)]
  rw [hq]
  ring

theorem jsRound_eq (q : ℚ) : jsRound q = ⌊q + 1/2⌋ := by
  unfold jsRound
  rw [ratFloor_eq_intFloor, mkRat_half]

theorem mkRat_hundred_div (a b : ℕ) :
    (mkRat (100 * a) b : ℚ) = (a : ℚ) / b * 100 := by
  rw [Rat.mkRat_eq_div]
  push_cast
  ring

theorem jsPercentage_eq (s t : ℕ) (ht : t ≠ 0) :
    jsPercentage s t = .num ((s : ℚ) / t * 100) := by
  unfold jsPercentage
  rw [if_neg ht, mkRat_hundred_div s t]

theorem computeProgress_eq (levels : List Level) (h : levels.length ≠ 0) :
    computeProgress levels
      = .num ((⌊(completedCount levels : ℚ) / levels.length * 100 + 1/2⌋ : ℤ) : ℚ) := by
  unfold computeProgress
  rw [if_neg h, jsRound_eq, mkRat_hundred_div]

/-! ## Claims -/

/-- C2: completing a quiz found by id in the viewed level marks that quiz
completed with the submitted score, appends exactly one attempt record
(with the quiz/level identity, the score, the quiz's question count and
the exact percentage) to the end of the history, completes the level
exactly when the quiz is at index 0 (or it was already completed), and
recomputes progress from the full level list. -/
theorem quiz_completion_updates_course
    (course : Course) (li : ℕ) (qid : String) (s now : ℕ)
    (level : Level) (hlevel : course.levels.get? li = some level)
    (qi : ℕ) (hfind : jsFindIndex (fun q => q.quizId = qid) level.quizzes = some qi)
    (quiz : Quiz) (hquiz : level.quizzes.get? qi = some quiz)
    (hq : quiz.questions.length ≠ 0) :
    CompleteQuizOutcome course li qid s now level qi quiz := by
  have hli : li < course.levels.length := (List.get?_eq_some.mp hlevel).fst
  have hqi : qi < level.quizzes.length := (List.get?_eq_some.mp hquiz).fst
  unfold CompleteQuizOutcome
  simp only [handleQuizComplete, hlevel, hfind, hquiz]
  refine ⟨_, _, rfl, ⟨_, get?_set_self _ hli, rfl, rfl, rfl, rfl, ?_, ?_⟩, ?_, ?_, ?_, ?_⟩
  · exact get?_set_self _ hqi
  · by_cases hc : qi = 0 ∧ level.status ≠ LStatus.completed
    · simp only [hc, if_true, if_pos hc]
      simp [hc.1]
    · rw [if_neg hc]
      push_neg at hc
      constructor
      · intro h; exact Or.inr h
      · rintro (h0 | h)
        · exact hc h0
        · exact h
  · intro i hi
    exact get?_set_ne _ (Ne.symm hi)
  · exact List.length_set ..
  · rw [jsPercentage_eq _ _ hq]
  · exact computeProgress_eq _ (by rw [List.length_set]; omega)

/-- C2 witness: scenario A — on a fresh three-level course, completing
level 0's quiz `q0` with score 2 of 3 completes level 0, sets progress
to 33, records one history entry, and unlocks level 1. -/
theorem quiz_completion_updates_course_witness :
    CompleteQuizOutcome course3 0 "q0" 2 5 (mkFreshLevel "l0" "L0" "q0") 0
      { quizId := "q0"
        questions := [dummyQuestion, dummyQuestion, dummyQuestion]
        status := .notStarted } ∧
    ((applyHandleQuizComplete course3 0 "q0" 2 5).progress = .num 33 ∧
     (applyHandleQuizComplete course3 0 "q0" 2 5).history.length = 1 ∧
     isLevelUnlocked (applyHandleQuizComplete course3 0 "q0" 2 5) 1 = some true ∧
     ((applyHandleQuizComplete course3 0 "q0" 2 5).levels.get? 0).map Level.status
        = some .completed) :=
  ⟨quiz_completion_updates_course course3 0 "q0" 2 5 _ rfl 0 rfl _ rfl (by decide),
   by refine ⟨?_, ?_, ?_, ?_⟩ <;> decide⟩

/-- C1 (amended): after either completion-status-changing mutation
(quiz completion, level append), the stored progress equals
`round(100 * completedLevels / totalLevels)` computed over the updated
full level list — provided the resulting levels list is nonempty.  When
the levels list is empty the append path stores `NaN` (the JS code has
no divide-by-zero guard), not 0. -/
theorem progress_recomputed_after_mutations :
    (∀ (course : Course) (li : ℕ) (qid : String) (s now : ℕ),
       (∃ nc old, handleQuizComplete course li qid s now = .ok nc old) →
       (applyHandleQuizComplete course li qid s now).progress
         = .num ((⌊(completedCount (applyHandleQuizComplete course li qid s now).levels : ℚ)
             / ((applyHandleQuizComplete course li qid s now).levels.length : ℚ)
             * 100 + 1/2⌋ : ℤ) : ℚ)) ∧
    (∀ (course : Course) (partials : List PartialLevel) (now : ℕ),
       (appendLevelsToCourse course partials now).levels ≠ [] →
       (appendLevelsToCourse course partials now).progress
         = .num ((⌊(completedCount (appendLevelsToCourse course partials now).levels : ℚ)
             / ((appendLevelsToCourse course partials now).levels.length : ℚ)
             * 100 + 1/2⌋ : ℤ) : ℚ)) ∧
    (∀ (course : Course) (partials : List PartialLevel) (now : ℕ),
       (appendLevelsToCourse course partials now).levels = [] →
       (appendLevelsToCourse course partials now).progress = .nan) := by
  refine ⟨?_, ?_, ?_⟩
  · intro course li qid s now h
    obtain ⟨nc, old, h⟩ := h
    unfold applyHandleQuizComplete
    rw [h]
    cases hl : course.levels.get? li with
    | none =>
      simp only [handleQuizComplete, hl] at h
      exact QuizCompleteResult.noConfusion h
    | some level =>
      cases hf : jsFindIndex (fun q => q.quizId = qid) level.quizzes with
      | none =>
        simp only [handleQuizComplete, hl, hf] at h
        exact QuizCompleteResult.noConfusion h
      | some qi =>
        cases hq2 : level.quizzes.get? qi with
        | none =>
          simp only [handleQuizComplete, hl, hf, hq2] at h
          exact QuizCompleteResult.noConfusion h
        | some quiz =>
          have hli : li < course.levels.length := (List.get?_eq_some.mp hl).fst
          simp only [handleQuizComplete, hl, hf, hq2] at h
          injection h with h1 h2
          subst h1
          exact computeProgress_eq _ (by rw [List.length_set]; omega)
  · intro course partials now h
    exact computeProgress_eq _ (fun hl => h (List.length_eq_zero.mp hl))
  · intro course partials now h
    have h' : (appendLevelsToCourse course partials now).progress
        = computeProgress ((appendLevelsToCourse course partials now).levels) := rfl
    rw [h', h]
    rfl

/-- C1 counterexample: a level-append on a course whose levels list is
(and stays) empty stores `NaN` — the undefined `0/0` value — as
progress, not 0 as the claim requires. -/
theorem progress_empty_course_is_nan :
    (appendLevelsToCourse emptyCourse [] 0).progress = .nan ∧ JSNum.nan ≠ .num 0 :=
  ⟨rfl, by decide⟩

/-- C1 witness: the quiz-completion branch applied to the concrete
three-level course; the stored progress also concretely equals 33. -/
theorem progress_recomputed_witness :
    (∃ nc old, handleQuizComplete course3 0 "q0" 2 5 = .ok nc old) ∧
    (applyHandleQuizComplete course3 0 "q0" 2 5).progress
      = .num ((⌊(completedCount (applyHandleQuizComplete course3 0 "q0" 2 5).levels : ℚ)
          / ((applyHandleQuizComplete course3 0 "q0" 2 5).levels.length : ℚ)
          * 100 + 1/2⌋ : ℤ) : ℚ) ∧
    (appendLevelsToCourse course2done [] 1).progress
      = .num ((⌊(completedCount (appendLevelsToCourse course2done [] 1).levels : ℚ)
          / ((appendLevelsToCourse course2done [] 1).levels.length : ℚ)
          * 100 + 1/2⌋ : ℤ) : ℚ) :=
  ⟨⟨_, _, rfl⟩,
   progress_recomputed_after_mutations.1 course3 0 "q0" 2 5 ⟨_, _, rfl⟩,
   progress_recomputed_after_mutations.2.1 course2done [] 1 (by decide)⟩

/-- C3: the claim that `handleQuizComplete` leaves the input course
observationally unchanged is false — `newCourse = {...course}` is a
shallow copy whose `levels` array aliases the input's, and
`newCourse.levels[currentLevelIndex] = levelToUpdate` writes through it.
At this concrete input, the holder of the old course reference observes
the updated levels array (level 0 now completed) while its `history`
and `progress` stay stale. -/
theorem completeQuiz_mutates_input_course :
    ∃ nc old, handleQuizComplete course3 0 "q0" 2 5 = .ok nc old ∧
      old.levels = nc.levels ∧
      old.levels ≠ course3.levels ∧
      old.history = course3.history ∧
      old.progress = course3.progress ∧
      (old.levels.get? 0).map Level.status = some .completed := by
  refine ⟨_, _, rfl, ?_, ?_, ?_, ?_, ?_⟩ <;> decide

/-- C4 (amended): completing a quiz whose questions list is empty
records an attempt whose percentage is the JS value of `(s / 0) * 100` —
`NaN` when the score is 0, `Infinity` otherwise — not the 0% the claim
requires; the code has no guard. -/
theorem empty_quiz_percentage_not_finite
    (course : Course) (li : ℕ) (qid : String) (s now : ℕ)
    (level : Level) (hlevel : course.levels.get? li = some level)
    (qi : ℕ) (hfind : jsFindIndex (fun q => q.quizId = qid) level.quizzes = some qi)
    (quiz : Quiz) (hquiz : level.quizzes.get? qi = some quiz)
    (hq : quiz.questions = []) :
    ∃ nc old, handleQuizComplete course li qid s now = .ok nc old ∧
      ∃ att, nc.history = course.history ++ [att] ∧
        att.percentage = (if s = 0 then JSNum.nan else JSNum.inf) := by
  simp only [handleQuizComplete, hlevel, hfind, hquiz]
  refine ⟨_, _, rfl, _, rfl, ?_⟩
  simp only [hq, List.length_nil]
  unfold jsPercentage
  rw [if_pos rfl]

/-- C4 counterexample: on the concrete course whose quiz `qe` has no
questions, completing it with score 0 stores percentage `NaN`, which is
not the claimed 0%. -/
theorem empty_quiz_percentage_counterexample :
    ∃ nc old, handleQuizComplete courseEmptyQuiz 0 "qe" 0 7 = .ok nc old ∧
      nc.history.map QuizAttempt.percentage = [JSNum.nan] ∧
      JSNum.nan ≠ .num 0 := by
  refine ⟨_, _, rfl, ?_, ?_⟩ <;> decide

/-- C4 witness: the amended statement applied at a concrete input with a
nonzero score (yielding `Infinity`). -/
theorem empty_quiz_percentage_witness :
    ∃ nc old, handleQuizComplete courseEmptyQuiz 0 "qe" 3 8 = .ok nc old ∧
      ∃ att, nc.history = courseEmptyQuiz.history ++ [att] ∧
        att.percentage = (if 3 = 0 then JSNum.nan else JSNum.inf) :=
  empty_quiz_percentage_not_finite courseEmptyQuiz 0 "qe" 3 8 _ rfl 0 rfl _ rfl rfl

/-- C5: a generator-returned image index resolves to `images[i]` exactly
when `0 ≤ i < images.length` and to no image otherwise (never an
exception), and every generation path — the auto course build, the
per-level manual build, and the supplemental-levels build — resolves its
level and question image indices through exactly this rule. -/
theorem image_index_resolution :
    ∀ (images : List String) (i : ℤ),
      ((0 ≤ i ∧ i < (images.length : ℤ)) →
        resolveImage images i = images.get? i.toNat ∧ (images.get? i.toNat).isSome) ∧
      (¬(0 ≤ i ∧ i < (images.length : ℤ)) → resolveImage images i = none) ∧
      (∀ (difficulty : Difficulty) (parsed : ParsedCourse) (now : ℕ),
        (buildCourseFromParsed images difficulty parsed now).levels.map Level.imageUrl
          = parsed.levels.map fun l => resolveImage images l.imageIndex) ∧
      (∀ parsed : ParsedLevelContent,
        (buildLevelContent images parsed).imageUrl = resolveImage images parsed.imageIndex) ∧
      (∀ (parsed : List ParsedLevel) (now : ℕ),
        (buildAdditionalLevels images parsed now).map PartialLevel.imageUrl
          = parsed.map fun l => resolveImage images l.imageIndex) ∧
      (∀ qs : List ParsedQuestion,
        (buildQuizQuestions images qs).map QuizQuestion.imageUrl
          = qs.map fun q => resolveImageOpt images q.imageIndex) := by
  intro images i
  refine ⟨?_, ?_, ?_, ?_, ?_, ?_⟩
  · intro h
    have ht : i.toNat < images.length := by omega
    constructor
    · unfold resolveImage
      rw [if_pos h]
    · rw [List.get?_eq_getElem?]
      simp [List.getElem?_eq_getElem ht]
  · intro h
    unfold resolveImage
    rw [if_neg h]
  · intro difficulty parsed now
    unfold buildCourseFromParsed
    rw [map_mapWithIndex]
    exact mapWithIndex_const (fun l => resolveImage images l.imageIndex) 0 parsed.levels
  · intro parsed
    rfl
  · intro parsed now
    unfold buildAdditionalLevels
    rw [map_mapWithIndex]
    exact mapWithIndex_const (fun l => resolveImage images l.imageIndex) 0 parsed
  · intro qs
    unfold buildQuizQuestions
    rw [List.map_map]
    rfl

/-- C5 witness: the resolution rule at the spec's sample indices on a
two-image list: index 1 is in range and resolves to the second image;
`-1`, `length`, and `length + 5` resolve to no image. -/
theorem image_index_resolution_witness :
    (resolveImage ["a", "b"] 1 = (["a", "b"] : List String).get? (1 : ℤ).toNat ∧
      ((["a", "b"] : List String).get? (1 : ℤ).toNat).isSome) ∧
    resolveImage ["a", "b"] (-1) = none ∧
    resolveImage ["a", "b"] 2 = none ∧
    resolveImage ["a", "b"] 7 = none :=
  ⟨(image_index_resolution ["a", "b"] 1).1 (by decide),
   (image_index_resolution ["a", "b"] (-1)).2.1 (by decide),
   (image_index_resolution ["a", "b"] 2).2.1 (by decide),
   (image_index_resolution ["a", "b"] 7).2.1 (by decide)⟩

/-- C6: appending generator-produced levels puts each new level at the
end with status not-started and exactly one seeded not-started quiz,
leaves every pre-existing level unchanged, and recomputes progress over
the enlarged list. -/
theorem append_levels_spec (course : Course) (images : List String)
    (parsed : List ParsedLevel) (tg ta : ℕ) :
    AppendOutcome course images parsed tg ta := by
  unfold AppendOutcome appendLevelsToCourse
  refine ⟨?_, ?_, ?_, ?_⟩
  · simp [length_mapWithIndex, buildAdditionalLevels]
  · exact List.take_left ..
  · intro l hl
    rw [List.drop_left] at hl
    obtain ⟨j, partial_, hmem, rfl⟩ := mem_mapWithIndex hl
    refine ⟨rfl, ?_⟩
    unfold buildAdditionalLevels at hmem
    obtain ⟨j', pl, _, rfl⟩ := mem_mapWithIndex hmem
    rfl
  · intro h
    exact computeProgress_eq _ (fun hl => h (List.length_eq_zero.mp hl))

/-- C6 witness: scenario B — appending two generator levels to a fully
completed two-level course (progress 100) recomputes progress to 50,
with the internal nonemptiness hypothesis discharged concretely; the
concrete progress value 50 and level count 4 are checked directly. -/
theorem append_levels_witness :
    AppendOutcome course2done [] [parsedNewLevel "N1", parsedNewLevel "N2"] 3 4 ∧
    (appendLevelsToCourse course2done
        (buildAdditionalLevels [] [parsedNewLevel "N1", parsedNewLevel "N2"] 3) 4).progress
      = .num 50 ∧
    (appendLevelsToCourse course2done
        (buildAdditionalLevels [] [parsedNewLevel "N1", parsedNewLevel "N2"] 3) 4).levels.length
      = 4 :=
  ⟨append_levels_spec course2done [] [parsedNewLevel "N1", parsedNewLevel "N2"] 3 4,
   by decide, by decide⟩

/-- C7: completing with a quizId absent from the addressed level's quiz
list is a silent no-op — `findIndex` returns `-1`, the handler returns
before touching anything, and the stored course is unchanged. -/
theorem quiz_not_found_noop
    (course : Course) (li : ℕ) (qid : String) (s now : ℕ)
    (level : Level) (hlevel : course.levels.get? li = some level)
    (habsent : ∀ q ∈ level.quizzes, q.quizId ≠ qid) :
    handleQuizComplete course li qid s now = .notFound ∧
    applyHandleQuizComplete course li qid s now = course := by
  have hf : jsFindIndex (fun q => decide (q.quizId = qid)) level.quizzes = none :=
    jsFindIndex_eq_none fun q hq => by simpa using habsent q hq
  have h1 : handleQuizComplete course li qid s now = .notFound := by
    simp only [handleQuizComplete, hlevel, hf]
  refine ⟨h1, ?_⟩
  unfold applyHandleQuizComplete
  rw [h1]

/-- C7 witness: completing quiz id `zzz` (present nowhere) on the
concrete three-level course leaves the course untouched. -/
theorem quiz_not_found_noop_witness :
    handleQuizComplete course3 0 "zzz" 1 5 = .notFound ∧
    applyHandleQuizComplete course3 0 "zzz" 1 5 = course3 :=
  quiz_not_found_noop course3 0 "zzz" 1 5 _ rfl (by decide)

/-- C8 (amended): across a quiz completion, every quiz that was
completed stays completed (the status is monotonic), but the score is
not set exactly once — the addressed quiz's score is overwritten with
the latest submission's score on every completion, including a
re-completion of an already-completed quiz. -/
theorem quiz_status_monotone_score_latest
    (course : Course) (li : ℕ) (qid : String) (s now : ℕ) (nc old : Course)
    (h : handleQuizComplete course li qid s now = .ok nc old) :
    (∀ i lvlOld lvlNew, course.levels.get? i = some lvlOld →
       nc.levels.get? i = some lvlNew →
       ∀ j qOld qNew, lvlOld.quizzes.get? j = some qOld →
         lvlNew.quizzes.get? j = some qNew →
         qOld.status = .completed → qNew.status = .completed) ∧
    (∀ level qi quiz, course.levels.get? li = some level →
       jsFindIndex (fun q => q.quizId = qid) level.quizzes = some qi →
       level.quizzes.get? qi = some quiz →
       ∃ lvlNew, nc.levels.get? li = some lvlNew ∧
         lvlNew.quizzes.get? qi = some { quiz with status := .completed, score := some s }) := by
  cases hl : course.levels.get? li with
  | none =>
    simp only [handleQuizComplete, hl] at h
    exact QuizCompleteResult.noConfusion h
  | some level =>
    cases hf : jsFindIndex (fun q => q.quizId = qid) level.quizzes with
    | none =>
      simp only [handleQuizComplete, hl, hf] at h
      exact QuizCompleteResult.noConfusion h
    | some qi =>
      cases hq2 : level.quizzes.get? qi with
      | none =>
        simp only [handleQuizComplete, hl, hf, hq2] at h
        exact QuizCompleteResult.noConfusion h
      | some quiz =>
        have hli : li < course.levels.length := (List.get?_eq_some.mp hl).fst
        have hqi : qi < level.quizzes.length := (List.get?_eq_some.mp hq2).fst
        simp only [handleQuizComplete, hl, hf, hq2] at h
        injection h with h1 h2
        subst h1
        constructor
        · intro i lvlOld lvlNew hgetOld hgetNew j qOld qNew hqOld hqNew hdone
          by_cases hi : i = li
          · subst hi
            rw [hl] at hgetOld
            injection hgetOld with hgetOld
            subst hgetOld
            rw [get?_set_self _ hli] at hgetNew
            injection hgetNew with hgetNew
            subst hgetNew
            by_cases hj : j = qi
            · subst hj
              simp only [get?_set_self _ hqi] at hqNew
              injection hqNew with hqNew
              subst hqNew
              rfl
            · simp only [get?_set_ne _ (fun hh => hj hh.symm)] at hqNew
              rw [hqOld] at hqNew
              injection hqNew with hqNew
              subst hqNew
              exact hdone
          · rw [get?_set_ne _ (fun hh => hi hh.symm), hgetOld] at hgetNew
            injection hgetNew with hgetNew
            subst hgetNew
            rw [hqOld] at hqNew
            injection hqNew with hqNew
            subst hqNew
            exact hdone
        · intro level' qi' quiz' hl' hf' hq'
          have e1 : level' = level := (Option.some.inj hl').symm
          subst e1
          have e2 : qi' = qi := Option.some.inj (hf'.symm.trans hf)
          subst e2
          have e3 : quiz' = quiz := Option.some.inj (hq'.symm.trans hq2)
          subst e3
          exact ⟨_, get?_set_self _ hli, get?_set_self _ hqi⟩

/-- C8 counterexample: completing quiz `q0` with score 2 and then
completing the same (now already completed) quiz again with score 1
replaces the stored score 2 with 1 — the score is not set exactly
once. -/
theorem score_overwritten_counterexample :
    ∃ nc1 old1, handleQuizComplete course3 0 "q0" 2 5 = .ok nc1 old1 ∧
      (∃ l, nc1.levels.get? 0 = some l ∧ (l.quizzes.get? 0).map Quiz.score = some (some 2)) ∧
      ∃ nc2 old2, handleQuizComplete nc1 0 "q0" 1 9 = .ok nc2 old2 ∧
        (∃ l, nc2.levels.get? 0 = some l ∧ (l.quizzes.get? 0).map Quiz.score = some (some 1)) ∧
        (some 1 : Option ℕ) ≠ some 2 := by
  refine ⟨_, _, rfl, ⟨_, rfl, by decide⟩, _, _, rfl, ⟨_, rfl, by decide⟩, by decide⟩

/-- C8 witness: the amended statement applied at the concrete course;
the addressed quiz ends completed with the latest score 2. -/
theorem quiz_status_monotone_witness :
    ∃ nc old, handleQuizComplete course3 0 "q0" 2 5 = .ok nc old ∧
      ∃ lvlNew, nc.levels.get? 0 = some lvlNew ∧
        lvlNew.quizzes.get? 0 = some
          { quizId := "q0"
            questions := [dummyQuestion, dummyQuestion, dummyQuestion]
            status := .completed
            score := some 2 } := by
  refine ⟨_, _, rfl, ?_⟩
  exact (quiz_status_monotone_score_latest course3 0 "q0" 2 5 _ _ rfl).2 _ 0 _ rfl rfl rfl

/-- C9: level 0 is always unlocked; a later level is unlocked exactly
when its predecessor is completed; consequently every index up to and
including the first incomplete level's index is unlocked. -/
theorem level_unlock_rule (course : Course) :
    isLevelUnlocked course 0 = some true ∧
    (∀ n, 0 < n → ∀ l, course.levels.get? (n - 1) = some l →
       (isLevelUnlocked course n = some true ↔ l.status = .completed)) ∧
    (∀ i, i ≤ firstIncompleteLevelIndex course.levels →
       isLevelUnlocked course i = some true) := by
  refine ⟨rfl, ?_, ?_⟩
  · intro n hn l hl
    unfold isLevelUnlocked
    rw [if_neg hn.ne', hl]
    simp
  · intro i hi
    match i with
    | 0 => rfl
    | i + 1 =>
      obtain ⟨l, hl, hc⟩ := lt_firstIncomplete_get? course.levels i (by omega)
      unfold isLevelUnlocked
      rw [if_neg (Nat.succ_ne_zero i), Nat.succ_sub_one, hl]
      simp [hc]

/-- C9 witness: on the fully completed two-level course level 2 (one
past the last) is unlocked since the first incomplete index is 2, and
level 1's unlock state matches level 0's completion. -/
theorem level_unlock_witness :
    isLevelUnlocked course2done 0 = some true ∧
    isLevelUnlocked course2done 2 = some true ∧
    (isLevelUnlocked course2done 1 = some true ↔
      (mkDoneLevel "l0" "L0" "q0").status = .completed) :=
  ⟨(level_unlock_rule course2done).1,
   (level_unlock_rule course2done).2.2 2 (by decide),
   (level_unlock_rule course2done).2.1 1 (by decide) _ rfl⟩

/-- C10 (amended): `loadCourses` never throws; a missing key,
unparseable JSON or a non-array JSON value yields the empty collection,
but any JSON *array* is returned wholesale — its elements are not
validated as Course values, so foreign array data is returned rather
than discarded. -/
theorem load_courses_behavior :
    loadCourses .missing = [] ∧
    loadCourses .unparseable = [] ∧
    (∀ j : JSON, (∀ xs, j ≠ .arr xs) → loadCourses (.parsed j) = []) ∧
    (∀ xs, loadCourses (.parsed (.arr xs)) = xs) := by
  refine ⟨rfl, rfl, ?_, fun xs => rfl⟩
  intro j hj
  cases j with
  | arr xs => exact absurd rfl (hj xs)
  | null => rfl
  | bool b => rfl
  | num q => rfl
  | str s => rfl
  | obj fs => rfl

/-- C10 counterexample: the stored JSON array `[1]` is parsed and
returned as the course collection even though its element is not a
well-formed Course value — foreign data is not discarded. -/
theorem load_returns_foreign_array :
    loadCourses (.parsed (.arr [.num 1])) = [.num 1] ∧
    loadCourses (.parsed (.arr [.num 1])) ≠ [] ∧
    isCourseJSON (.num 1) = false :=
  ⟨rfl, fun h => List.noConfusion h, rfl⟩

/-- C10 witness: the amended statement applied to a concrete non-array
value and a concrete (empty) array. -/
theorem load_courses_witness :
    loadCourses (.parsed (.num 5)) = [] ∧ loadCourses (.parsed (.arr [])) = [] :=
  ⟨load_courses_behavior.2.2.1 (.num 5) (fun _ h => JSON.noConfusion h),
   load_courses_behavior.2.2.2 []⟩

end SelfStudy
